import Mathlib

/-!
Verification of the PAYONE payment plugin core for the pretix ticketing
platform (files pretix_payone/payment.py and pretix_payone/views.py).

The development shallowly embeds the response-interpretation state machine
of PayoneMethod.execute_payment, the request-builder truncation and name
logic of PayoneMethod._get_payment_params, the amount codec
(_decimal_to_int / _amount_to_decimal, including a model of IEEE-754
binary64 rounding, since the decoder goes through a Python float), the
credit-card session cleanup of PayoneCC.execute_payment, the return-flow
hash check of PayoneOrderView.dispatch, and the signed-redirect scheme of
PayoneMethod.redirect together with views.redirect_view.

External collaborators (Django sessions, the requests HTTP client, Django
signing, hashlib) are modelled by explicit state passing and by abstract
function parameters with the documented semantics of those libraries.
-/

namespace PretixPayone

/-! ### Session store (Django request.session, modelled as an assoc list;
the first binding of a key wins, assignment prepends, pop removes all
bindings of the key). -/

inductive SessVal where
  | str (v : String)
  | bool (v : Bool)
deriving DecidableEq

/-- Python truthiness of a session value. -/
def SessVal.truthy : SessVal → Bool
  | .str v => v ≠ ""
  | .bool v => v

abbrev Session := List (String × SessVal)

def sessGet : Session → String → Option SessVal
  | [], _ => none
  | (k, v) :: rest, key => if k = key then some v else sessGet rest key

def sessSet (s : Session) (key : String) (v : SessVal) : Session :=
  (key, v) :: s

def sessPop : Session → String → Session
  | [], _ => []
  | (k, v) :: rest, key => if k = key then sessPop rest key else (k, v) :: sessPop rest key

/-! ### Gateway JSON response

A parsed JSON body of the PAYONE gateway, restricted to the keys the
plugin reads: Status, RedirectUrl, the Error sub-object with its
CustomerMessage, and the top-level ErrorMessage.  A `none` field models an
absent key (so that a Python KeyError on subscript access is observable). -/

structure GwError where
  CustomerMessage : Option String
deriving DecidableEq

structure GwResponse where
  Status : Option String
  RedirectUrl : Option String
  Error : Option GwError
  ErrorMessage : Option String
deriving DecidableEq

/-- Python exceptions that the embedded code can raise and that are not
caught inside the embedded fragment (so they propagate to the caller). -/
inductive PyErr where
  | keyError
  | typeError
  | attributeError
  | jsonDecodeError
  | connectionError
  | notImplementedError
deriving DecidableEq

/-- Payment lifecycle states of the externally owned OrderPayment. -/
inductive PayState where
  | created
  | pending
  | confirmed
  | failed
deriving DecidableEq

/-- Diagnostic info persisted on the payment record: either the parsed
JSON body, or the fallback dict built in the HTTPError handler, holding
the raw response text. -/
inductive PayInfo where
  | parsed (r : GwResponse)
  | fallback (rawText : String)
deriving DecidableEq

structure Payment where
  state : PayState
  info : Option PayInfo
  orderSecret : String
deriving DecidableEq

/-- Result of the one synchronous POST to the gateway, as seen by the
plugin: either the requests library raised a transport-level exception
(connection error, timeout), or a response arrived with an HTTP status
code, a body that may or may not parse as JSON, and the raw text. -/
inductive HttpOutcome where
  | transportError
  | response (statusCode : ℕ) (jsonBody : Option GwResponse) (rawText : String)
deriving DecidableEq

/-- What execute_payment does for the caller: return normally (with an
optional redirect URL string), raise the generic communication
PaymentException, raise the decline PaymentException carrying the message
formatted into the user-facing text, or let a raw Python exception
propagate uncaught. -/
inductive ExecOutcome where
  | ok (ret : Option String)
  | commError
  | decline (message : String)
  | raw (e : PyErr)
deriving DecidableEq

structure ExecResult where
  outcome : ExecOutcome
  payment : Payment
  session : Session
deriving DecidableEq

/-- Ambient context for PayoneMethod.redirect: the keyed signature
function of django.core.signing.Signer with salt "safe-redirect" (the key
is baked in), urllib.parse.quote, and the absolute URI of the plugin
redirect endpoint as produced by build_absolute_uri. -/
structure SignCtx where
  mac : String → String
  quote : String → String
  redirectBase : String

/-- Output of django.core.signing.Signer.sign: the value, a colon
separator, and the keyed base64 signature of the value. -/
def signerSign (mac : String → String) (v : String) : String :=
  v ++ ":" ++ mac v

/-- PayoneMethod.redirect (payment.py lines 385 to 394): inside an iframe
session the browser is sent to the same-origin redirect endpoint with the
signed target URL as query parameter; otherwise the raw URL is returned. -/
def payoneRedirect (c : SignCtx) (sess : Session) (url : String) : String :=
  if ((sessGet sess "iframe_session").elim false SessVal.truthy) then
    c.redirectBase ++ "?url=" ++ c.quote (signerSign c.mac url)
  else url

/-- PayoneMethod.execute_payment, gateway call and response
interpretation (payment.py lines 340 to 383), given the already-built
request parameters.  Models: the try/except around requests.post and
raise_for_status (only requests.HTTPError is caught, which is raised
exactly for 4xx and 5xx status codes; a transport-level exception from
requests.post itself matches no handler and propagates); the HTTPError
handler that captures the JSON body, or a fallback dict with the raw
text, as diagnostic info via payment.fail(info=d) and raises the generic
communication PaymentException; req.json() on the success path (raising
uncaught on an unparseable body); the verbatim persistence of the parsed
body and the reset to state created; and the four-way Status dispatch,
where subscript access to a missing key raises KeyError. -/
def executePaymentCore (c : SignCtx) (http : HttpOutcome) (p : Payment)
    (sess : Session) : ExecResult :=
  match http with
  | .transportError => ⟨.raw .connectionError, p, sess⟩
  | .response statusCode jsonBody rawText =>
    if 400 ≤ statusCode ∧ statusCode < 600 then
      let d : PayInfo := match jsonBody with
        | some j => .parsed j
        | none => .fallback rawText
      ⟨.commError, { p with state := .failed, info := some d }, sess⟩
    else
      match jsonBody with
      | none => ⟨.raw .jsonDecodeError, p, sess⟩
      | some data =>
        let p1 : Payment := { p with info := some (.parsed data), state := .created }
        match data.Status with
        | none => ⟨.raw .keyError, p1, sess⟩
        | some s =>
          if s = "APPROVED" then
            ⟨.ok none, { p1 with state := .confirmed }, sess⟩
          else if s = "REDIRECT" then
            let sess1 := sessSet sess "payment_payone_order_secret" (.str p.orderSecret)
            match data.RedirectUrl with
            | none => ⟨.raw .keyError, p1, sess1⟩
            | some u => ⟨.ok (some (payoneRedirect c sess1 u)), p1, sess1⟩
          else if s = "ERROR" then
            let p2 : Payment := { p1 with state := .failed }
            match data.Error with
            | none => ⟨.raw .keyError, p2, sess⟩
            | some e =>
              ⟨.decline (e.CustomerMessage.getD (data.ErrorMessage.getD "Unknown error")),
                p2, sess⟩
          else if s = "PENDING" then
            ⟨.ok none, { p1 with state := .pending }, sess⟩
          else
            ⟨.ok none, p1, sess⟩

/-- Concrete signing context used to evaluate the embedding at witness
and counterexample inputs. -/
def cDemo : SignCtx :=
  { mac := fun _ => "sig", quote := id, redirectBase := "https://shop.example/redirect" }

def pDemo : Payment := { state := .created, info := none, orderSecret := "s3cr3t" }

/-- Claim C1 (counterexample).  The claim states that for every parsed
gateway response with Status ERROR the payment moves to Failed and a
decline error is raised whose message falls back to ErrorMessage when
Error.CustomerMessage is absent.  On the response with Status ERROR and a
top-level ErrorMessage "foo" but no Error object, execute_payment instead
raises a raw KeyError while evaluating the subscript access to the absent
Error key, so no decline error with message "foo" is raised. -/
theorem C1_status_mapping_counterexample :
    (executePaymentCore cDemo
      (.response 200 (some ⟨some "ERROR", none, none, some "foo"⟩) "") pDemo []).outcome
        = .raw .keyError ∧
    (executePaymentCore cDemo
      (.response 200 (some ⟨some "ERROR", none, none, some "foo"⟩) "") pDemo []).outcome
        ≠ .decline "foo" := by decide

/-- Claim C1 (amended).  For every parsed gateway response,
execute_payment maps the Status field as follows: APPROVED confirms the
payment and returns no redirect; REDIRECT leaves the payment in state
created and, when a RedirectUrl is present, returns a redirect toward it
(built by PayoneMethod.redirect from the session); ERROR moves the
payment to Failed and, when the Error object is present, raises a decline
error whose user-facing message is Error.CustomerMessage when present,
else the top-level ErrorMessage, else the text "Unknown error" (when the
Error object is absent, a raw KeyError propagates instead, after the
payment has already been failed); PENDING moves the payment to the
pending state. -/
theorem C1_status_mapping (c : SignCtx) (resp : GwResponse) (p : Payment)
    (sess : Session) (rawText : String) :
    (resp.Status = some "APPROVED" →
      (executePaymentCore c (.response 200 (some resp) rawText) p sess).outcome = .ok none ∧
      (executePaymentCore c (.response 200 (some resp) rawText) p sess).payment.state
        = .confirmed) ∧
    (resp.Status = some "REDIRECT" →
      (executePaymentCore c (.response 200 (some resp) rawText) p sess).payment.state
        = .created ∧
      ∀ u, resp.RedirectUrl = some u →
        (executePaymentCore c (.response 200 (some resp) rawText) p sess).outcome
          = .ok (some (payoneRedirect c
              (sessSet sess "payment_payone_order_secret" (.str p.orderSecret)) u))) ∧
    (resp.Status = some "ERROR" →
      (executePaymentCore c (.response 200 (some resp) rawText) p sess).payment.state
        = .failed ∧
      ((∀ e, resp.Error = some e →
        (executePaymentCore c (.response 200 (some resp) rawText) p sess).outcome
          = .decline (e.CustomerMessage.getD (resp.ErrorMessage.getD "Unknown error"))) ∧
       (resp.Error = none →
        (executePaymentCore c (.response 200 (some resp) rawText) p sess).outcome
          = .raw .keyError))) ∧
    (resp.Status = some "PENDING" →
      (executePaymentCore c (.response 200 (some resp) rawText) p sess).outcome = .ok none ∧
      (executePaymentCore c (.response 200 (some resp) rawText) p sess).payment.state
        = .pending) := by
  obtain ⟨st, ru, er, em⟩ := resp
  refine ⟨?_, ?_, ?_, ?_⟩
  · intro h
    simp only at h
    subst h
    simp +decide [executePaymentCore]
  · intro h
    simp only at h
    subst h
    refine ⟨by simp +decide [executePaymentCore]; cases ru <;> simp, ?_⟩
    intro u hu
    simp only at hu
    subst hu
    simp +decide [executePaymentCore]
  · intro h
    simp only at h
    subst h
    refine ⟨by simp +decide [executePaymentCore]; cases er <;> simp, ?_, ?_⟩
    · intro e he
      simp only at he
      subst he
      simp +decide [executePaymentCore]
    · intro he
      simp only at he
      subst he
      simp +decide [executePaymentCore]
  · intro h
    simp only at h
    subst h
    simp +decide [executePaymentCore]

/-- Witness for C1_status_mapping at a concrete PENDING response. -/
theorem C1_status_mapping_witness :
    (executePaymentCore cDemo
      (.response 200 (some ⟨some "PENDING", none, none, none⟩) "") pDemo []).outcome
        = .ok none ∧
    (executePaymentCore cDemo
      (.response 200 (some ⟨some "PENDING", none, none, none⟩) "") pDemo []).payment.state
        = .pending :=
  (C1_status_mapping cDemo ⟨some "PENDING", none, none, none⟩ pDemo [] "").2.2.2 rfl

/-- Claim C2 (counterexample).  The claim states that when the gateway
POST fails at transport level, execute_payment captures diagnostics,
marks the payment failed and raises the generic communication error, and
that no raw transport exception propagates.  The except clause only
names requests.HTTPError, which requests.post never raises; a
transport-level exception (connection error, timeout) therefore matches
no handler and propagates raw, with the payment left untouched. -/
theorem C2_gateway_failure_counterexample :
    (executePaymentCore cDemo .transportError pDemo []).outcome = .raw .connectionError ∧
    (executePaymentCore cDemo .transportError pDemo []).outcome ≠ .commError ∧
    (executePaymentCore cDemo .transportError pDemo []).payment.state ≠ .failed := by
  decide

/-- Claim C2 (amended).  If the gateway POST returns an HTTP error status
(4xx or 5xx, exactly the codes for which raise_for_status raises
HTTPError), execute_payment captures the parsed JSON body, or the raw
response text if the body is unparseable, as diagnostic info on the
payment, marks the payment failed, and raises the generic communication
PaymentException, without retrying; but a transport-level failure of the
POST itself is not caught and propagates to the caller as a raw
exception, leaving the payment untouched. -/
theorem C2_gateway_failure_handling (c : SignCtx) (p : Payment) (sess : Session)
    (statusCode : ℕ) (jsonBody : Option GwResponse) (rawText : String)
    (h4 : 400 ≤ statusCode) (h6 : statusCode < 600) :
    executePaymentCore c (.response statusCode jsonBody rawText) p sess =
      ⟨.commError,
       { p with state := .failed,
                info := some (match jsonBody with
                              | some j => .parsed j
                              | none => .fallback rawText) },
       sess⟩ ∧
    ∀ p2 sess2, executePaymentCore c .transportError p2 sess2
      = ⟨.raw .connectionError, p2, sess2⟩ := by
  refine ⟨?_, fun p2 sess2 => rfl⟩
  simp only [executePaymentCore, if_pos (And.intro h4 h6)]

/-- Witness for C2_gateway_failure_handling at HTTP status 500 with an
unparseable body. -/
theorem C2_gateway_failure_handling_witness :
    executePaymentCore cDemo (.response 500 none "oops") pDemo [] =
      ⟨.commError,
       { pDemo with state := .failed, info := some (.fallback "oops") }, []⟩ ∧
    ∀ p2 sess2, executePaymentCore cDemo .transportError p2 sess2
      = ⟨.raw .connectionError, p2, sess2⟩ :=
  C2_gateway_failure_handling cDemo pDemo [] 500 none "oops" (by decide) (by decide)

/-- Claim C3 (confirmed).  For every parsed gateway response with a
Status field, exactly the four values APPROVED, REDIRECT, ERROR, PENDING
drive the documented state mapping (confirmed, created, failed, pending
respectively, regardless of the presence of the other keys the branch
reads), and a response with any other Status value leaves the payment in
state created with the parsed body persisted and returns normally with no
redirect, so it is never accepted as success (the payment is not
confirmed). -/
theorem C3_status_totality (c : SignCtx) (resp : GwResponse) (p : Payment)
    (sess : Session) (rawText : String) (s : String) (hs : resp.Status = some s) :
    (s = "APPROVED" →
      (executePaymentCore c (.response 200 (some resp) rawText) p sess).payment.state
        = .confirmed) ∧
    (s = "REDIRECT" →
      (executePaymentCore c (.response 200 (some resp) rawText) p sess).payment.state
        = .created) ∧
    (s = "ERROR" →
      (executePaymentCore c (.response 200 (some resp) rawText) p sess).payment.state
        = .failed) ∧
    (s = "PENDING" →
      (executePaymentCore c (.response 200 (some resp) rawText) p sess).payment.state
        = .pending) ∧
    (s ≠ "APPROVED" → s ≠ "REDIRECT" → s ≠ "ERROR" → s ≠ "PENDING" →
      executePaymentCore c (.response 200 (some resp) rawText) p sess
        = ⟨.ok none, { p with info := some (.parsed resp), state := .created }, sess⟩ ∧
      (executePaymentCore c (.response 200 (some resp) rawText) p sess).payment.state
        ≠ .confirmed) := by
  obtain ⟨st, ru, er, em⟩ := resp
  simp only at hs
  subst hs
  refine ⟨?_, ?_, ?_, ?_, ?_⟩
  · intro h
    subst h
    simp +decide [executePaymentCore]
  · intro h
    subst h
    simp +decide [executePaymentCore]
    cases ru <;> simp
  · intro h
    subst h
    simp +decide [executePaymentCore]
    cases er <;> simp
  · intro h
    subst h
    simp +decide [executePaymentCore]
  · intro h1 h2 h3 h4
    refine ⟨?_, ?_⟩ <;>
      simp +decide [executePaymentCore, h1, h2, h3, h4]

/-- Witness for C3_status_totality at the unrecognized Status value
UNKNOWN. -/
theorem C3_status_totality_witness :
    executePaymentCore cDemo
        (.response 200 (some ⟨some "UNKNOWN", none, none, none⟩) "") pDemo []
      = ⟨.ok none,
         ⟨.created, some (.parsed ⟨some "UNKNOWN", none, none, none⟩), "s3cr3t"⟩, []⟩ ∧
    (executePaymentCore cDemo
        (.response 200 (some ⟨some "UNKNOWN", none, none, none⟩) "") pDemo []).payment.state
      ≠ .confirmed :=
  (C3_status_totality cDemo ⟨some "UNKNOWN", none, none, none⟩ pDemo [] "" "UNKNOWN"
    rfl).2.2.2.2 (by decide) (by decide) (by decide) (by decide)

/-! ### Method registry (payment.py lines 100 to 110 and 397 to 486)

Class attributes of PayoneMethod and of its four concrete subclasses,
gathered into a descriptor record. -/

structure MethodDef where
  method : String
  clearingtype : Option String
  onlinebanktransfertype : Option String
  onlinebanktransferCountries : List String
  wallettype : Option String
  invoiceAddressMandatory : Bool
  abortPendingAllowed : Bool
  refundsAllowed : Bool
deriving DecidableEq

/-- Class attribute defaults declared on PayoneMethod itself (payment.py
lines 100 to 110). -/
def payoneMethodDefaults : MethodDef :=
  { method := "", clearingtype := none, onlinebanktransfertype := none,
    onlinebanktransferCountries := [], wallettype := none,
    invoiceAddressMandatory := false, abortPendingAllowed := false,
    refundsAllowed := true }

def PayoneCC : MethodDef :=
  { payoneMethodDefaults with
    method := "creditcard", clearingtype := some "cc" }

def PayoneGiropay : MethodDef :=
  { payoneMethodDefaults with
    method := "giropay", clearingtype := some "sb",
    onlinebanktransfertype := some "GPY", onlinebanktransferCountries := ["DE"] }

def PayoneSEPADebit : MethodDef :=
  { payoneMethodDefaults with
    method := "sepadebit", clearingtype := some "elv",
    invoiceAddressMandatory := true }

def PayonePayPal : MethodDef :=
  { payoneMethodDefaults with
    method := "paypal", clearingtype := some "wlt",
    wallettype := some "PPE" }

/-- PayoneMethod.payment_refund_supported (payment.py lines 130 to 131). -/
def payment_refund_supported (m : MethodDef) (payment : Payment) : Bool :=
  m.refundsAllowed

/-- PayoneMethod.payment_partial_refund_supported (payment.py lines 133
to 134). -/
def paymentPartialRefundSupported (m : MethodDef) (payment : Payment) : Bool :=
  m.refundsAllowed

structure OrderRefundRec where
  pk : ℕ
deriving DecidableEq

/-- PayoneMethod.execute_refund (payment.py lines 206 to 207): raises
NotImplementedError unconditionally; no subclass overrides it. -/
def execute_refund (m : MethodDef) (refund : OrderRefundRec) (retry : Bool) :
    Except PyErr Unit :=
  .error .notImplementedError

/-- Claim C10 (confirmed).  All four payment method variants report full
and partial refund support (refunds_allowed is True and is overridden by
no variant), yet execute_refund raises NotImplementedError for every
refund, so no refund can actually be executed. -/
theorem C10_refunds_advertised_but_unimplemented (payment : Payment)
    (refund : OrderRefundRec) (retry : Bool) :
    (payment_refund_supported PayoneCC payment = true ∧
     payment_refund_supported PayoneGiropay payment = true ∧
     payment_refund_supported PayoneSEPADebit payment = true ∧
     payment_refund_supported PayonePayPal payment = true) ∧
    (paymentPartialRefundSupported PayoneCC payment = true ∧
     paymentPartialRefundSupported PayoneGiropay payment = true ∧
     paymentPartialRefundSupported PayoneSEPADebit payment = true ∧
     paymentPartialRefundSupported PayonePayPal payment = true) ∧
    (PayoneCC.refundsAllowed = true ∧ PayoneGiropay.refundsAllowed = true ∧
     PayoneSEPADebit.refundsAllowed = true ∧ PayonePayPal.refundsAllowed = true) ∧
    (execute_refund PayoneCC refund retry = .error .notImplementedError ∧
     execute_refund PayoneGiropay refund retry = .error .notImplementedError ∧
     execute_refund PayoneSEPADebit refund retry = .error .notImplementedError ∧
     execute_refund PayonePayPal refund retry = .error .notImplementedError) := by
  refine ⟨⟨rfl, rfl, rfl, rfl⟩, ⟨rfl, rfl, rfl, rfl⟩, ⟨rfl, rfl, rfl, rfl⟩,
    rfl, rfl, rfl, rfl⟩

/-! ### Return view hash check (views.py lines 45 to 75) -/

structure OrderRec where
  code : String
  secret : String
deriving DecidableEq

structure OrderPaymentRec where
  pk : ℕ
  provider : String
deriving DecidableEq

inductive Http404 where
  | http404
deriving DecidableEq

def decoyString : String := "abcdefghijklmnopq"

/-- PayoneOrderView.dispatch (views.py lines 46 to 63), parameterized by
the sha1 hex digest function.  Returns the lookup result together with
the number of hash digests computed on the path taken, so that the decoy
comparison of the not-found branch is observable.  The found branch
compares the digest of the lowercased order secret with the lowercased
hash URL parameter; the not-found branch computes a decoy digest and
raises Http404 in both arms of its comparison. -/
def dispatch (sha1hex : String → String) (orders : List OrderRec)
    (orderCode hashParam : String) : Except Http404 OrderRec × ℕ :=
  match orders.find? (fun o => o.code == orderCode) with
  | some o =>
    if sha1hex o.secret.toLower ≠ hashParam.toLower then (.error .http404, 1)
    else (.ok o, 1)
  | none =>
    if decoyString.toLower = sha1hex decoyString then (.error .http404, 1)
    else (.error .http404, 1)

/-- PayoneOrderView.payment (views.py lines 65 to 71):
get_object_or_404 on the payments of the order, filtered by primary key
and by a provider name starting with "payone". -/
def paymentLookup (payments : List OrderPaymentRec) (pk : ℕ) :
    Except Http404 OrderPaymentRec :=
  match payments.find? (fun q => q.pk == pk && q.provider.startsWith "payone") with
  | some q => .ok q
  | none => .error .http404

/-- Claim C8 (confirmed).  The inbound return-flow request fails with
Http404 when the order lookup fails, when the payment lookup fails, and
when the provided hash differs from the sha1 digest of the lowercased
true order secret; the successful path requires the digests to match; and
every dispatch path, including the order-not-found path with its decoy
comparison, computes exactly one hash digest. -/
theorem C8_return_flow_not_found (sha1hex : String → String)
    (orders : List OrderRec) (orderCode hashParam : String)
    (payments : List OrderPaymentRec) (pk : ℕ) :
    (orders.find? (fun o => o.code == orderCode) = none →
      dispatch sha1hex orders orderCode hashParam = (.error .http404, 1)) ∧
    (∀ o, orders.find? (fun o => o.code == orderCode) = some o →
      sha1hex o.secret.toLower ≠ hashParam.toLower →
      dispatch sha1hex orders orderCode hashParam = (.error .http404, 1)) ∧
    (∀ o, orders.find? (fun o => o.code == orderCode) = some o →
      sha1hex o.secret.toLower = hashParam.toLower →
      dispatch sha1hex orders orderCode hashParam = (.ok o, 1)) ∧
    (payments.find? (fun q => q.pk == pk && q.provider.startsWith "payone") = none →
      paymentLookup payments pk = .error .http404) ∧
    ((dispatch sha1hex orders orderCode hashParam).2 = 1) := by
  refine ⟨?_, ?_, ?_, ?_, ?_⟩
  · intro h
    simp only [dispatch, h]
    split <;> rfl
  · intro o ho hne
    simp only [dispatch, ho, if_pos hne]
  · intro o ho heq
    simp only [dispatch, ho]
    rw [if_neg]
    simp [heq]
  · intro h
    simp only [paymentLookup, h]
  · simp only [dispatch]
    split <;> split <;> rfl

/-- Witness for C8_return_flow_not_found: an empty order table yields
Http404 with the decoy digest computed once, and the payment lookup on an
empty payment table yields Http404. -/
theorem C8_return_flow_not_found_witness :
    dispatch (fun s => s ++ "#") [] "ORDER1" "whatever" = (.error .http404, 1) ∧
    paymentLookup [] 7 = .error .http404 :=
  ⟨(C8_return_flow_not_found (fun s => s ++ "#") [] "ORDER1" "whatever" [] 7).1 rfl,
   (C8_return_flow_not_found (fun s => s ++ "#") [] "ORDER1" "whatever" [] 7).2.2.2.1 rfl⟩

/-! ### Request builder (payment.py lines 217 to 336) -/

/-- Python string slice s[:n] for a possibly negative stop index: a
nonnegative stop keeps the first n characters, a negative stop drops the
last |n| characters (and yields the empty string when |n| exceeds the
length). -/
def pySliceTo (s : String) (n : ℤ) : String :=
  if 0 ≤ n then ⟨s.data.take n.toNat⟩ else ⟨s.data.take (s.data.length - n.natAbs)⟩

/-- The reference request field (payment.py lines 220 to 223): the event
slug sliced to 20 minus 1 minus the length of the order code, a dash, and
the order code. -/
def reference (slug code : String) : String :=
  pySliceTo slug (20 - 1 - (code.length : ℤ)) ++ "-" ++ code

/-- The narrative_text request field (payment.py lines 227 to 230): the
order code, a space, and the event name sliced to 81 minus 1 minus the
length of the order code. -/
def narrative_text (code eventName : String) : String :=
  code ++ " " ++ pySliceTo eventName (81 - 1 - (code.length : ℤ))

/-- First-match lookup in a Python dict modelled as an assoc list. -/
def alistGet : List (String × String) → String → Option String
  | [], _ => none
  | (k, v) :: rest, key => if k = key then some v else alistGet rest key

/-- Splits a character list at the first occurrence of sep, returning the
parts before and after it, or none when sep does not occur. -/
def breakAtFirst (sep : Char) : List Char → Option (List Char × List Char)
  | [] => none
  | c :: cs =>
    if c = sep then some ([], cs)
    else (breakAtFirst sep cs).map (fun p => (c :: p.1, p.2))

/-- Python s.rsplit(sep, 1) reduced to the pair (first element, last
element) of the resulting list; when sep does not occur the list is the
singleton of s, so both components are s itself. -/
def pyRsplit1 (sep : Char) (s : String) : String × String :=
  match breakAtFirst sep s.data.reverse with
  | none => (s, s)
  | some (a, b) => (⟨b.reverse⟩, ⟨a.reverse⟩)

/-- Invoice address fields read by the request builder.  An absent
invoice address (InvoiceAddress.DoesNotExist) is the record with all
fields empty.  nameParts models the name_parts dict. -/
structure InvoiceAddr where
  company : String
  nameParts : List (String × String)
  name : String
  vatId : String
  vatIdValidated : Bool
deriving DecidableEq

/-- The optional company, lastname and firstname request fields. -/
structure NameFields where
  company : Option String
  lastname : Option String
  firstname : Option String
deriving DecidableEq

/-- Name-field block of PayoneMethod._get_payment_params (payment.py
lines 290 to 300).  When name_parts carries a truthy family_name the
source evaluates the subscript expression on the InvoiceAddress model
instance itself, which supports no subscripting, so a TypeError is raised
before any field is assigned.  Otherwise a truthy display name is
rsplit on its last space into firstname and lastname (a name without a
space yields that whole name for both, by Python rsplit semantics), and
with neither name nor company the lastname is the literal "Unknown". -/
def nameFields (ia : InvoiceAddr) : Except PyErr NameFields :=
  let comp : Option String :=
    if ia.company ≠ "" then some (pySliceTo ia.company 50) else none
  if ((alistGet ia.nameParts "family_name").elim false (fun v => v ≠ "")) then
    .error .typeError
  else if ia.name ≠ "" then
    .ok ⟨comp, some (pySliceTo (pyRsplit1 ' ' ia.name).2 50),
         some (pySliceTo (pyRsplit1 ' ' ia.name).1 50)⟩
  else if ia.company = "" then
    .ok ⟨comp, some "Unknown", none⟩
  else
    .ok ⟨comp, none, none⟩

/-- Claim C5 (counterexample).  The claim bounds the reference length by
20 for every slug and order code.  For an order code of length 20 the
slice stop index 20 minus 1 minus 20 is negative, so Python slicing drops
characters from the end of the slug instead of truncating it, and the
built reference keeps the full dash-plus-code suffix: with slug "a" and a
20-character code the reference has length 21. -/
theorem C5_truncation_counterexample :
    (reference "a" "AAAAAAAAAAAAAAAAAAAA").length = 21 ∧
    ¬ ((reference "a" "AAAAAAAAAAAAAAAAAAAA").length ≤ 20) := by decide

/-- Claim C5 (amended).  For every event slug and every order code of
length at most 19, the built reference field has length at most 20 (the
slug is truncated first, from the right, to leave room for the code); and
for every event name and every order code of length at most 80, the built
narrative_text field has length at most 81 (the event name is truncated).
For longer order codes the slice stop index becomes negative and the
bounds fail. -/
theorem C5_truncation (slug code eventName : String) :
    (code.length ≤ 19 → (reference slug code).length ≤ 20) ∧
    (code.length ≤ 80 → (narrative_text code eventName).length ≤ 81) := by
  constructor
  · intro hc
    have h0 : (0:ℤ) ≤ 20 - 1 - (code.length : ℤ) := by omega
    have hlen : (pySliceTo slug (20 - 1 - (code.length : ℤ))).length
        ≤ (20 - 1 - (code.length : ℤ)).toNat := by
      simp only [pySliceTo, if_pos h0]
      exact List.length_take_le _ _
    have hr : (reference slug code).length
        = (pySliceTo slug (20 - 1 - (code.length : ℤ))).length + 1 + code.length := by
      simp [reference, String.length_append]
      decide
    omega
  · intro hn
    have h0 : (0:ℤ) ≤ 81 - 1 - (code.length : ℤ) := by omega
    have hlen : (pySliceTo eventName (81 - 1 - (code.length : ℤ))).length
        ≤ (81 - 1 - (code.length : ℤ)).toNat := by
      simp only [pySliceTo, if_pos h0]
      exact List.length_take_le _ _
    have hr : (narrative_text code eventName).length
        = code.length + 1 + (pySliceTo eventName (81 - 1 - (code.length : ℤ))).length := by
      simp [narrative_text, String.length_append]
      decide
    omega

/-- Witness for C5_truncation at a realistic slug and 5-character order
code. -/
theorem C5_truncation_witness :
    (reference "democon" "F8VVL").length ≤ 20 ∧
    (narrative_text "F8VVL" "Demo Conference").length ≤ 81 :=
  ⟨(C5_truncation "democon" "F8VVL" "Demo Conference").1 (by decide),
   (C5_truncation "democon" "F8VVL" "Demo Conference").2 (by decide)⟩

/-- Claim C7 (code bug).  The guard reads ia.name_parts.get("family_name")
but the branch body then subscripts the InvoiceAddress instance itself
(ia["family_name"], ia.get("given_name", "")), so on every invoice
address with a structured family name the builder raises TypeError
instead of assigning the structured name parts.  The two fallback paths
behave as the claim states: a display name is split on its last space
(last token as lastname, remainder as firstname), and with neither
company nor any name the lastname is the literal "Unknown". -/
theorem C7_name_fields_code_behavior :
    nameFields ⟨"", [("family_name", "Doe"), ("given_name", "John")], "John Doe", "", false⟩
      = .error .typeError ∧
    nameFields ⟨"", [], "John Paul Doe", "", false⟩
      = .ok ⟨none, some "Doe", some "John Paul"⟩ ∧
    nameFields ⟨"", [], "JohnDoe", "", false⟩
      = .ok ⟨none, some "JohnDoe", some "JohnDoe"⟩ ∧
    nameFields ⟨"", [], "", "", false⟩ = .ok ⟨none, some "Unknown", none⟩ ∧
    nameFields ⟨"ACME Corp", [], "", "", false⟩
      = .ok ⟨some "ACME Corp", none, none⟩ :=
  ⟨rfl, rfl, rfl, rfl, rfl⟩

/-! ### Credit card variant and session cleanup (payment.py lines 397 to 431) -/

def ccSessionKeys : List String :=
  ["payment_payone_pseudocardpan", "payment_payone_truncatedcardpan",
   "payment_payone_cardtypeResponse", "payment_payone_cardexpiredateResponse",
   "payment_payone_cardholder"]

/-- Exception scan of the parameter-building step of
PayoneCC.execute_payment, in source order: the name-field block of the
base _get_payment_params (TypeError on a structured family name), the
vatid assignment (payment.py lines 307 to 308 read the attribute vatid,
which the InvoiceAddress model does not have, so a validated VAT id
raises AttributeError), and the credit-card override (payment.py lines
403 to 407) that subscripts the session pseudocardpan key (KeyError when
absent). -/
def ccParamsOutcome (ia : InvoiceAddr) (sess : Session) : Except PyErr Unit :=
  match nameFields ia with
  | .error e => .error e
  | .ok _ =>
    if ia.vatId ≠ "" ∧ ia.vatIdValidated then .error .attributeError
    else
      match sessGet sess "payment_payone_pseudocardpan" with
      | none => .error .keyError
      | some _ => .ok ()

/-- PayoneCC.execute_payment (payment.py lines 423 to 431): the base
execute_payment (including its parameter building) runs inside a try
block whose finally clause pops the five card-token session keys, so the
pops apply to the resulting session state on every path, normal return
and exception alike. -/
def ccExecutePayment (c : SignCtx) (ia : InvoiceAddr) (http : HttpOutcome)
    (p : Payment) (sess : Session) : ExecResult :=
  let inner : ExecResult :=
    match ccParamsOutcome ia sess with
    | .error e => ⟨.raw e, p, sess⟩
    | .ok _ => executePaymentCore c http p sess
  { inner with session := ccSessionKeys.foldl sessPop inner.session }

theorem sessGet_sessPop_self (s : Session) (k : String) :
    sessGet (sessPop s k) k = none := by
  induction s with
  | nil => rfl
  | cons kv rest ih =>
    obtain ⟨k0, v⟩ := kv
    by_cases h : k0 = k
    · simp [sessPop, h, ih]
    · simp [sessPop, sessGet, h, ih]

theorem sessGet_sessPop_of_none (s : Session) (k k2 : String)
    (h : sessGet s k = none) : sessGet (sessPop s k2) k = none := by
  induction s with
  | nil => rfl
  | cons kv rest ih =>
    obtain ⟨k0, v⟩ := kv
    simp only [sessGet] at h
    by_cases hk : k0 = k
    · rw [if_pos hk] at h
      cases h
    · rw [if_neg hk] at h
      by_cases h2 : k0 = k2
      · simp [sessPop, h2, ih h]
      · simp [sessPop, sessGet, h2, hk, ih h]

theorem sessGet_foldl_pop_of_none (keys : List String) (s : Session) (k : String)
    (h : sessGet s k = none) : sessGet (keys.foldl sessPop s) k = none := by
  induction keys generalizing s with
  | nil => exact h
  | cons k2 rest ih => exact ih _ (sessGet_sessPop_of_none s k k2 h)

theorem sessGet_foldl_pop_of_mem (keys : List String) (s : Session) (k : String)
    (h : k ∈ keys) : sessGet (keys.foldl sessPop s) k = none := by
  induction keys generalizing s with
  | nil => cases h
  | cons k2 rest ih =>
    rcases List.mem_cons.mp h with h1 | h1
    · subst h1
      exact sessGet_foldl_pop_of_none rest _ k (sessGet_sessPop_self s k)
    · exact ih _ h1

/-- Claim C6 (confirmed).  After PayoneCC.execute_payment finishes, on
every path (normal return, decline, communication error, raw exception
from parameter building, transport error or the gateway call), none of
the five session-held card-token keys remain in the session. -/
theorem C6_cc_session_cleanup (c : SignCtx) (ia : InvoiceAddr) (http : HttpOutcome)
    (p : Payment) (sess : Session) (k : String) (hk : k ∈ ccSessionKeys) :
    sessGet (ccExecutePayment c ia http p sess).session k = none :=
  sessGet_foldl_pop_of_mem ccSessionKeys _ k hk

/-- Witness for C6_cc_session_cleanup: a concrete approved credit-card
payment with a full card-token session. -/
theorem C6_cc_session_cleanup_witness :
    sessGet (ccExecutePayment cDemo ⟨"", [], "John Doe", "", false⟩
        (.response 200 (some ⟨some "APPROVED", none, none, none⟩) "") pDemo
        [("payment_payone_pseudocardpan", .str "tok123"),
         ("payment_payone_cardholder", .str "John Doe")]).session
      "payment_payone_pseudocardpan" = none :=
  C6_cc_session_cleanup cDemo ⟨"", [], "John Doe", "", false⟩
    (.response 200 (some ⟨some "APPROVED", none, none, none⟩) "") pDemo
    [("payment_payone_pseudocardpan", .str "tok123"),
     ("payment_payone_cardholder", .str "John Doe")]
    "payment_payone_pseudocardpan" (by decide)

/-! ### Signed redirect endpoint (views.py lines 26 to 42) -/

/-- Splits a string at the LAST occurrence of a colon, the way
django.core.signing.Signer separates value and signature (value may
contain colons, the base64 signature may not). -/
def splitLastColon (s : String) : Option (String × String) :=
  match breakAtFirst ':' s.data.reverse with
  | none => none
  | some (a, b) => some (⟨b.reverse⟩, ⟨a.reverse⟩)

/-- django.core.signing.Signer.unsign: split off the signature after the
last colon and compare it with the recomputed keyed signature of the
value; a missing separator or a mismatch is a BadSignature (none). -/
def signerUnsign (mac : String → String) (s : String) : Option String :=
  match splitLastColon s with
  | none => none
  | some (v, sig) => if sig = mac v then some v else none

inductive ViewResult where
  | badRequest
  | render (url : String)
deriving DecidableEq

/-- views.redirect_view (views.py lines 26 to 42): unsign the url query
parameter; a BadSignature answers Bad Request, otherwise the bounce page
is rendered carrying the verified URL. -/
def redirect_view (mac : String → String) (urlParam : String) : ViewResult :=
  match signerUnsign mac urlParam with
  | none => .badRequest
  | some u => .render u

theorem breakAtFirst_not_mem (sep : Char) (l r : List Char) (h : sep ∉ l) :
    breakAtFirst sep (l ++ sep :: r) = some (l, r) := by
  induction l with
  | nil => simp [breakAtFirst]
  | cons c cs ih =>
    have hc : c ≠ sep := fun e => h (e ▸ List.mem_cons_self c cs)
    have hcs : sep ∉ cs := fun m => h (List.mem_cons_of_mem _ m)
    simp [breakAtFirst, hc, ih hcs]

theorem breakAtFirst_eq_some (sep : Char) :
    ∀ l a b, breakAtFirst sep l = some (a, b) → l = a ++ sep :: b := by
  intro l
  induction l with
  | nil => intro a b h; cases h
  | cons c cs ih =>
    intro a b h
    by_cases hc : c = sep
    · subst hc
      simp only [breakAtFirst, if_pos rfl] at h
      injection h with h2
      injection h2 with ha hb
      subst ha
      subst hb
      simp
    · simp only [breakAtFirst, if_neg hc] at h
      obtain ⟨⟨a2, b2⟩, hab, heq⟩ := Option.map_eq_some'.mp h
      injection heq with h1 h2
      subst h1
      subst h2
      simp [ih a2 b2 hab]

theorem splitLastColon_sign (v m : String) (hm : ':' ∉ m.data) :
    splitLastColon (v ++ ":" ++ m) = some (v, m) := by
  have hdata : (v ++ ":" ++ m).data = v.data ++ ':' :: m.data := by
    simp [String.data_append]
  have hrev : (v.data ++ ':' :: m.data).reverse
      = m.data.reverse ++ ':' :: v.data.reverse := by
    simp [List.reverse_append]
  have hnm : ':' ∉ m.data.reverse := fun hx => hm (List.mem_reverse.mp hx)
  simp only [splitLastColon, hdata, hrev, breakAtFirst_not_mem ':' _ _ hnm]
  simp

theorem splitLastColon_eq_some (s a b : String)
    (h : splitLastColon s = some (a, b)) : s = a ++ ":" ++ b := by
  simp only [splitLastColon] at h
  rcases hbf : breakAtFirst ':' s.data.reverse with _ | ⟨x, y⟩
  · rw [hbf] at h; cases h
  · rw [hbf] at h
    injection h with h2
    have ha : (⟨y.reverse⟩ : String) = a := congrArg Prod.fst h2
    have hb : (⟨x.reverse⟩ : String) = b := congrArg Prod.snd h2
    have hs := breakAtFirst_eq_some ':' s.data.reverse x y hbf
    apply String.ext
    have hd : s.data = y.reverse ++ ':' :: x.reverse := by
      have h3 := congrArg List.reverse hs
      simpa [List.reverse_append] using h3
    rw [← ha, ← hb]
    simp only [String.data_append, hd]
    simp

theorem signerUnsign_sign (mac : String → String) (v : String)
    (hm : ':' ∉ (mac v).data) :
    signerUnsign mac (signerSign mac v) = some v := by
  simp [signerUnsign, signerSign, splitLastColon_sign v (mac v) hm]

theorem signerUnsign_eq_some (mac : String → String) (s v : String)
    (h : signerUnsign mac s = some v) : s = v ++ ":" ++ mac v := by
  simp only [signerUnsign] at h
  split at h
  · cases h
  · rename_i a b heq
    split at h
    · rename_i hb
      injection h with h2
      subst h2
      have h3 := splitLastColon_eq_some s a b heq
      rw [hb] at h3
      exact h3
    · cases h

/-- Claim C9 (confirmed).  In an iframe session, a REDIRECT outcome
returns the same-origin redirect endpoint URL carrying the signed target
(never the raw gateway RedirectUrl, which is strictly shorter); the
redirect endpoint recovers exactly the original URL from the signed
parameter; and for every parameter value, the endpoint either answers Bad
Request or forwards only to a URL whose recomputed signature matches the
attached one (so any unsigned or tampered parameter is rejected).
Hypotheses: the session carries the iframe flag, the base64 signature
contains no colon, and percent-quoting does not shrink a string. -/
theorem C9_iframe_signed_redirect (c : SignCtx) (resp : GwResponse) (p : Payment)
    (sess : Session) (rawText url : String)
    (hst : resp.Status = some "REDIRECT") (hru : resp.RedirectUrl = some url)
    (hif : sessGet sess "iframe_session" = some (.bool true))
    (hmac : ∀ v, ':' ∉ (c.mac v).data)
    (hq : ∀ t : String, t.length ≤ (c.quote t).length) :
    (executePaymentCore c (.response 200 (some resp) rawText) p sess).outcome
      = .ok (some (c.redirectBase ++ "?url=" ++ c.quote (signerSign c.mac url))) ∧
    (c.redirectBase ++ "?url=" ++ c.quote (signerSign c.mac url)) ≠ url ∧
    redirect_view c.mac (signerSign c.mac url) = .render url ∧
    (∀ s u, redirect_view c.mac s = .render u → s = signerSign c.mac u) := by
  have hlen : url.length < (c.redirectBase ++ "?url=" ++ c.quote (signerSign c.mac url)).length := by
    have h1 : (signerSign c.mac url).length = url.length + 1 + (c.mac url).length := by
      simp [signerSign, String.length_append]
      decide
    have h2 := hq (signerSign c.mac url)
    simp only [String.length_append]
    have h5 : ("?url=" : String).length = 5 := by decide
    omega
  refine ⟨?_, ?_, ?_, ?_⟩
  · obtain ⟨st, ru, er, em⟩ := resp
    simp only at hst hru
    subst hst
    subst hru
    simp +decide [executePaymentCore, payoneRedirect, sessSet, sessGet, hif]
  · intro heq
    rw [heq] at hlen
    omega
  · simp [redirect_view, signerUnsign_sign c.mac url (hmac url)]
  · intro s u hr
    simp only [redirect_view] at hr
    split at hr
    · cases hr
    · rename_i w hu
      injection hr with h2
      subst h2
      exact signerUnsign_eq_some c.mac s _ hu

/-- Witness for C9_iframe_signed_redirect at a concrete giropay-style
redirect response inside an iframe session. -/
theorem C9_iframe_signed_redirect_witness :
    (executePaymentCore cDemo
        (.response 200 (some ⟨some "REDIRECT", some "https://bank.example/x", none, none⟩) "")
        pDemo [("iframe_session", .bool true)]).outcome
      = .ok (some (cDemo.redirectBase ++ "?url="
          ++ cDemo.quote (signerSign cDemo.mac "https://bank.example/x"))) :=
  (C9_iframe_signed_redirect cDemo
    ⟨some "REDIRECT", some "https://bank.example/x", none, none⟩ pDemo
    [("iframe_session", .bool true)] "" "https://bank.example/x" rfl rfl rfl
    (fun v => (by decide : ':' ∉ ("sig" : String).data)) (fun t => Nat.le_refl _)).1

/-! ### Amount codec (payment.py lines 209 to 215)

The decoder _amount_to_decimal computes float(cents) / (10 ** places) in
IEEE-754 binary64 arithmetic before rounding to the currency precision,
so the codec is modelled together with binary64 rounding: a positive
rational with binary exponent e (meaning 2 ^ e is the largest power of
two below it) is scaled by 2 ^ (52 - e), rounded to the nearest integer
with ties to even, and scaled back.  Exponent overflow and subnormals lie
far outside the modelled range and are ignored.  round_decimal is the
pretix platform helper, Decimal(value) quantized to the currency
precision with ROUND_HALF_UP (ties away from zero); conversion of a
binary64 value to Decimal is exact, so its argument is the exact rational
value of the float. -/

/-- Round a rational to the nearest integer, ties to even (the IEEE-754
default rounding attribute). -/
def rte (x : ℚ) : ℤ :=
  if x - ⌊x⌋ < 1/2 then ⌊x⌋
  else if 1/2 < x - ⌊x⌋ then ⌊x⌋ + 1
  else if ⌊x⌋ % 2 = 0 then ⌊x⌋ else ⌊x⌋ + 1

/-- Binary64 rounding of a positive rational: scale into the 53-bit
mantissa window of its binary exponent, round to integer, scale back. -/
def nearestFloatPos (q : ℚ) : ℚ :=
  (rte (q * (2:ℚ)^(52 - Int.log 2 q)) : ℤ) * (2:ℚ)^(Int.log 2 q - 52)

/-- Binary64 rounding, extended to zero and to negative rationals by the
sign symmetry of IEEE-754 rounding. -/
def nearestFloat (q : ℚ) : ℚ :=
  if q = 0 then 0
  else if q < 0 then -nearestFloatPos (-q)
  else nearestFloatPos q

/-- CPython float(int): the integer rounded to the nearest binary64. -/
def pyFloatOfInt (z : ℤ) : ℚ := nearestFloat z

/-- IEEE-754 binary64 division: the exact quotient of the operand values,
rounded to the nearest binary64. -/
def pyFloatDiv (a b : ℚ) : ℚ := nearestFloat (a / b)

/-- Python int() on an exact numeric value: truncation toward zero. -/
def pyIntTrunc (x : ℚ) : ℤ := if 0 ≤ x then ⌊x⌋ else -⌊-x⌋

/-- Rounding half away from zero to an integer, the ROUND_HALF_UP
rounding mode of decimal.Decimal.quantize. -/
def roundHalfUp (x : ℚ) : ℤ := if 0 ≤ x then ⌊x + 1/2⌋ else -⌊-x + 1/2⌋

/-- pretix round_decimal(value, currency), the external platform helper
called by _amount_to_decimal: quantize to the currency precision with
ROUND_HALF_UP. -/
def round_decimal (x : ℚ) (places : ℕ) : ℚ :=
  (roundHalfUp (x * 10^places) : ℤ) / 10^places

/-- PayoneMethod._decimal_to_int (payment.py lines 213 to 215):
int(amount * 10 ** places); Decimal times int is exact, int() truncates
toward zero. -/
def decimal_to_int (places : ℕ) (amount : ℚ) : ℤ :=
  pyIntTrunc (amount * 10^places)

/-- PayoneMethod._amount_to_decimal (payment.py lines 209 to 211):
round_decimal(float(cents) / (10 ** places), currency): the integer minor
units and the power of ten are converted to binary64, divided in
binary64, and the result is rounded to the currency precision. -/
def amount_to_decimal (places : ℕ) (cents : ℤ) : ℚ :=
  round_decimal (pyFloatDiv (pyFloatOfInt cents) (pyFloatOfInt (10^places))) places

theorem rte_le (x : ℚ) : (rte x : ℚ) ≤ x + 1/2 := by
  have h1 := Int.floor_le x
  have h2 := Int.lt_floor_add_one x
  unfold rte
  split_ifs <;> push_cast <;> linarith

theorem le_rte (x : ℚ) : x - 1/2 ≤ (rte x : ℚ) := by
  have h1 := Int.floor_le x
  have h2 := Int.lt_floor_add_one x
  unfold rte
  split_ifs <;> push_cast <;> linarith

theorem rte_intCast (n : ℤ) : rte (n : ℚ) = n := by
  unfold rte
  rw [Int.floor_intCast, sub_self]
  norm_num

/-- The binary exponent is characterized by its sandwich property. -/
theorem log2_eq_of {q : ℚ} {e : ℤ} (h1 : (2:ℚ)^e ≤ q) (h2 : q < (2:ℚ)^(e+1)) :
    Int.log 2 q = e := by
  have hq : 0 < q := lt_of_lt_of_le (zpow_pos (by norm_num) e) h1
  have hc : ((2:ℕ):ℚ) = (2:ℚ) := by norm_num
  have hl1 : (2:ℚ)^(Int.log 2 q) ≤ q := by
    have := Int.zpow_log_le_self (b := 2) (by norm_num) hq
    rwa [hc] at this
  have hl2 : q < (2:ℚ)^(Int.log 2 q + 1) := by
    have := Int.lt_zpow_succ_log_self (b := 2) (by norm_num) q
    rwa [hc] at this
  have ha : Int.log 2 q < e + 1 :=
    (zpow_lt_zpow_iff_right₀ (by norm_num)).mp (lt_of_le_of_lt hl1 h2)
  have hb : e < Int.log 2 q + 1 :=
    (zpow_lt_zpow_iff_right₀ (by norm_num)).mp (lt_of_le_of_lt h1 hl2)
  omega

/-- Integers of at most 53 significant bits are exactly representable in
binary64. -/
theorem nearestFloat_natCast (n : ℕ) (hn : n ≤ 2^52) : nearestFloat (n:ℚ) = n := by
  rcases Nat.eq_zero_or_pos n with h0 | h0
  · subst h0
    simp [nearestFloat]
  · have hq0 : (0:ℚ) < (n:ℚ) := by exact_mod_cast h0
    have h1n : (1:ℚ) ≤ (n:ℚ) := by exact_mod_cast h0
    rw [nearestFloat, if_neg (ne_of_gt hq0), if_neg (not_lt.mpr (le_of_lt hq0))]
    set e := Int.log 2 (n:ℚ) with he
    have he0 : 0 ≤ e :=
      (Int.zpow_le_iff_le_log (by norm_num) hq0).mp (by simpa using h1n)
    have hle : (n:ℚ) ≤ (2:ℚ)^(52:ℤ) := by
      have h' : (n:ℚ) ≤ ((2^52 : ℕ) : ℚ) := by exact_mod_cast hn
      calc (n:ℚ) ≤ ((2^52 : ℕ) : ℚ) := h'
        _ = (2:ℚ)^(52:ℕ) := by push_cast; ring
        _ = (2:ℚ)^(52:ℤ) := (zpow_natCast 2 52).symm
    have hl1 : (2:ℚ)^e ≤ (n:ℚ) := by
      have := Int.zpow_log_le_self (b := 2) (by norm_num) hq0
      rwa [(by norm_num : ((2:ℕ):ℚ) = (2:ℚ))] at this
    have he52 : e ≤ 52 :=
      (zpow_le_zpow_iff_right₀ (by norm_num)).mp (le_trans hl1 hle)
    obtain ⟨m, hm⟩ : ∃ m : ℕ, (m:ℤ) = 52 - e :=
      ⟨(52 - e).toNat, Int.toNat_of_nonneg (by omega)⟩
    have hx : (n:ℚ) * (2:ℚ)^(52 - e) = ((((n : ℤ) * 2^m : ℤ)) : ℚ) := by
      rw [← hm, zpow_natCast]
      push_cast
      ring
    rw [nearestFloatPos, ← he, hx, rte_intCast]
    calc ((((n : ℤ) * 2^m : ℤ)) : ℚ) * (2:ℚ)^(e - 52)
        = (n:ℚ) * ((2:ℚ)^(m : ℕ) * (2:ℚ)^(e - 52)) := by push_cast; ring
      _ = (n:ℚ) * ((2:ℚ)^((m:ℤ)) * (2:ℚ)^(e - 52)) := by
          rw [zpow_natCast (2:ℚ) m]
      _ = (n:ℚ) * (2:ℚ)^((m:ℤ) + (e - 52)) := by
          rw [← zpow_add₀ (by norm_num : (2:ℚ) ≠ 0)]
      _ = (n:ℚ) := by
          rw [hm]
          norm_num

/-- Binary64 rounding moves a positive rational by at most half an ulp. -/
theorem nearestFloatPos_close (q : ℚ) :
    |nearestFloatPos q - q| ≤ (2:ℚ)^(Int.log 2 q - 53) := by
  set e := Int.log 2 q with he
  set x := q * (2:ℚ)^(52 - e) with hx
  have hqx : q = x * (2:ℚ)^(e - 52) := by
    rw [hx, mul_assoc, ← zpow_add₀ (by norm_num : (2:ℚ) ≠ 0)]
    norm_num
  have hrte : |(rte x : ℚ) - x| ≤ 1/2 :=
    abs_le.mpr ⟨by linarith [le_rte x], by linarith [rte_le x]⟩
  have key : nearestFloatPos q - q = ((rte x : ℚ) - x) * (2:ℚ)^(e - 52) := by
    rw [nearestFloatPos, ← he, ← hx, sub_mul]
    conv_lhs => rw [hqx]
  rw [key, abs_mul, abs_of_pos (zpow_pos (by norm_num : (0:ℚ) < 2) (e - 52))]
  have h253 : (2:ℚ)^(e - 53) = (1/2) * (2:ℚ)^(e - 52) := by
    have h2 : (1/2 : ℚ) = (2:ℚ)^(-1 : ℤ) := by norm_num
    rw [h2, ← zpow_add₀ (by norm_num : (2:ℚ) ≠ 0)]
    congr 1
    omega
  rw [h253]
  exact mul_le_mul_of_nonneg_right hrte
    (le_of_lt (zpow_pos (by norm_num : (0:ℚ) < 2) (e - 52)))

/-- Round trip of the amount codec for nonnegative amounts of at most
2 ^ 51 minor units; the general statement extends this to negative
amounts by the odd symmetry of every codec stage. -/
theorem round_trip_nn (places k : ℕ) (hp : places ≤ 15) (hk : k ≤ 2^51) :
    amount_to_decimal places (decimal_to_int places ((k:ℚ) / 10^places))
      = (k:ℚ) / 10^places := by
  have hten : (0:ℚ) < 10^places := by positivity
  have h10 : ((10:ℚ)^places) ≠ 0 := ne_of_gt hten
  have ha : decimal_to_int places ((k:ℚ) / 10^places) = (k:ℤ) := by
    rw [decimal_to_int, div_mul_cancel₀ _ h10, pyIntTrunc,
      if_pos (by positivity : (0:ℚ) ≤ (k:ℚ))]
    exact_mod_cast Int.floor_natCast k
  rw [ha]
  have hd : pyFloatOfInt ((10:ℤ)^places) = (10:ℚ)^places := by
    rw [pyFloatOfInt]
    have hcast : (((10:ℤ)^places : ℤ) : ℚ) = (((10^places : ℕ) : ℕ) : ℚ) := by
      push_cast
      ring
    rw [hcast, nearestFloat_natCast _
      (le_trans (Nat.pow_le_pow_right (by norm_num) hp) (by norm_num))]
    push_cast
    ring
  have hc : pyFloatOfInt (k:ℤ) = (k:ℚ) := by
    rw [pyFloatOfInt]
    have hcast : (((k:ℤ)) : ℚ) = ((k : ℕ) : ℚ) := by push_cast; ring
    rw [hcast, nearestFloat_natCast _ (le_trans hk (by norm_num))]
  rw [amount_to_decimal, hd, hc, pyFloatDiv]
  rcases Nat.eq_zero_or_pos k with hk0 | hk0
  · subst hk0
    rw [(by push_cast; ring : ((0:ℕ):ℚ) / 10^places = (0:ℚ))]
    rw [nearestFloat, if_pos rfl, round_decimal, zero_mul, roundHalfUp,
      if_pos (le_refl (0:ℚ))]
    norm_num
  · have hq0 : (0:ℚ) < (k:ℚ) / 10^places := by positivity
    rw [nearestFloat, if_neg (ne_of_gt hq0), if_neg (not_lt.mpr (le_of_lt hq0))]
    set q := (k:ℚ) / 10^places with hqdef
    set e := Int.log 2 q with he
    set y := nearestFloatPos q with hy
    have hl1 : (2:ℚ)^e ≤ q := by
      have := Int.zpow_log_le_self (b := 2) (by norm_num) hq0
      rwa [(by norm_num : ((2:ℕ):ℚ) = (2:ℚ)), ← he] at this
    have hqk : q * 10^places = (k:ℚ) := by
      rw [hqdef, div_mul_cancel₀ _ h10]
    have hek : (2:ℚ)^e * 10^places ≤ (k:ℚ) := by
      calc (2:ℚ)^e * 10^places ≤ q * 10^places :=
            mul_le_mul_of_nonneg_right hl1 (le_of_lt hten)
        _ = (k:ℚ) := hqk
    have hk51 : (k:ℚ) ≤ (2:ℚ)^(51:ℤ) := by
      calc (k:ℚ) ≤ ((2^51 : ℕ) : ℚ) := by exact_mod_cast hk
        _ = (2:ℚ)^(51:ℕ) := by push_cast; ring
        _ = (2:ℚ)^(51:ℤ) := (zpow_natCast 2 51).symm
    have hbound : (2:ℚ)^(e - 53) * 10^places ≤ 1/4 := by
      have hsplit : (2:ℚ)^(e - 53) = (2:ℚ)^e * (2:ℚ)^(-53 : ℤ) := by
        rw [← zpow_add₀ (by norm_num : (2:ℚ) ≠ 0)]
        congr 1
      have h2pos : (0:ℚ) < (2:ℚ)^(-53:ℤ) := zpow_pos (by norm_num) _
      calc (2:ℚ)^(e - 53) * 10^places
          = ((2:ℚ)^e * 10^places) * (2:ℚ)^(-53:ℤ) := by rw [hsplit]; ring
        _ ≤ (2:ℚ)^(51:ℤ) * (2:ℚ)^(-53:ℤ) :=
            mul_le_mul_of_nonneg_right (le_trans hek hk51) (le_of_lt h2pos)
        _ = (2:ℚ)^((51:ℤ) + (-53)) := by
            rw [← zpow_add₀ (by norm_num : (2:ℚ) ≠ 0)]
        _ ≤ 1/4 := by norm_num
    have hclose := nearestFloatPos_close q
    rw [← he, ← hy] at hclose
    have habs := abs_le.mp hclose
    have hstep : |y * 10^places - (k:ℚ)| ≤ 1/4 := by
      have hexp : y * 10^places - (k:ℚ) = (y - q) * 10^places := by
        rw [sub_mul, hqk]
      rw [hexp, abs_mul, abs_of_pos hten]
      calc |y - q| * 10^places ≤ (2:ℚ)^(e - 53) * 10^places :=
            mul_le_mul_of_nonneg_right hclose (le_of_lt hten)
        _ ≤ 1/4 := hbound
    have habs2 := abs_le.mp hstep
    have hk1 : (1:ℚ) ≤ (k:ℚ) := by exact_mod_cast hk0
    have h0y : (0:ℚ) ≤ y * 10^places := by linarith
    have hfloor : ⌊y * 10^places + 1/2⌋ = (k:ℤ) := by
      refine Int.floor_eq_iff.mpr ⟨?_, ?_⟩
      · push_cast
        linarith
      · push_cast
        linarith
    rw [round_decimal, roundHalfUp, if_pos h0y, hfloor, hqdef]
    push_cast
    ring

theorem pyIntTrunc_neg (x : ℚ) : pyIntTrunc (-x) = -pyIntTrunc x := by
  unfold pyIntTrunc
  split_ifs with h1 h2 h2
  · have hx : x = 0 := le_antisymm (by linarith) h2
    subst hx
    norm_num
  · simp
  · simp
  · linarith

theorem roundHalfUp_neg (x : ℚ) : roundHalfUp (-x) = -roundHalfUp x := by
  unfold roundHalfUp
  split_ifs with h1 h2 h2
  · have hx : x = 0 := le_antisymm (by linarith) h2
    subst hx
    norm_num
  · simp
  · simp
  · linarith

theorem nearestFloat_neg (x : ℚ) : nearestFloat (-x) = -nearestFloat x := by
  rcases lt_trichotomy x 0 with h | h | h
  · rw [nearestFloat, if_neg (by intro h0; linarith), if_neg (by linarith),
      nearestFloat, if_neg (ne_of_lt h), if_pos h, neg_neg]
  · subst h
    norm_num [nearestFloat]
  · rw [nearestFloat, if_neg (by intro h0; linarith), if_pos (by linarith), neg_neg,
      nearestFloat, if_neg (ne_of_gt h), if_neg (not_lt.mpr (le_of_lt h))]

theorem decimal_to_int_neg (places : ℕ) (a : ℚ) :
    decimal_to_int places (-a) = -decimal_to_int places a := by
  rw [decimal_to_int, decimal_to_int, neg_mul, pyIntTrunc_neg]

theorem round_decimal_neg (x : ℚ) (places : ℕ) :
    round_decimal (-x) places = -round_decimal x places := by
  rw [round_decimal, round_decimal, neg_mul, roundHalfUp_neg, Int.cast_neg, neg_div]

theorem amount_to_decimal_neg (places : ℕ) (z : ℤ) :
    amount_to_decimal places (-z) = -amount_to_decimal places z := by
  simp only [amount_to_decimal, pyFloatOfInt, pyFloatDiv, Int.cast_neg,
    nearestFloat_neg, neg_div, round_decimal_neg]

/-- Claim C4 (amended).  For every currency precision of at most 15
decimal places and every decimal amount representable at that precision
whose minor-unit magnitude is at most 2 ^ 51, decoding the encoded amount
returns the original amount; the two codec functions are exact inverses
on this range.  (For larger amounts the binary64 conversions inside
_amount_to_decimal can lose the final minor unit, see the
counterexample.) -/
theorem C4_round_trip (places : ℕ) (k : ℤ) (hp : places ≤ 15) (hk : |k| ≤ 2^51) :
    amount_to_decimal places (decimal_to_int places ((k:ℚ) / 10^places))
      = (k:ℚ) / 10^places := by
  rcases le_or_lt 0 k with hk0 | hk0
  · obtain ⟨n, rfl⟩ := Int.eq_ofNat_of_zero_le hk0
    have hn : n ≤ 2^51 := by
      have := hk
      rw [abs_of_nonneg hk0] at this
      exact_mod_cast this
    have := round_trip_nn places n hp hn
    simpa using this
  · obtain ⟨n, hnn⟩ : ∃ n : ℕ, (n:ℤ) = -k :=
      ⟨(-k).toNat, Int.toNat_of_nonneg (by omega)⟩
    have hkn : k = -(n:ℤ) := by omega
    subst hkn
    have hn : n ≤ 2^51 := by
      have := hk
      rw [abs_neg, abs_of_nonneg (by exact_mod_cast Int.ofNat_nonneg n)] at this
      exact_mod_cast this
    have hcast : (((-(n:ℤ)):ℤ):ℚ) / 10^places = -((n:ℚ) / 10^places) := by
      push_cast
      ring
    rw [hcast, decimal_to_int_neg, amount_to_decimal_neg, round_trip_nn places n hp hn]

/-- Witness for C4_round_trip at the spec scenario of 10.00 EUR, minor
units 1000 at 2 decimal places. -/
theorem C4_round_trip_witness :
    amount_to_decimal 2 (decimal_to_int 2 ((1000:ℤ) / 10^2 : ℚ)) = ((1000:ℤ) / 10^2 : ℚ) :=
  C4_round_trip 2 1000 (by norm_num) (by norm_num)

/-- Claim C4 (counterexample).  The claim asserts the codec functions are
exact inverses for every amount representable at the currency precision.
The amount 90071992547409.93 (two decimal places, minor units
9007199254740993 = 2 ^ 53 + 1) encodes exactly, but decoding goes through
binary64: float(9007199254740993) rounds to 2 ^ 53 (tie to even), the
division by 100 rounds again to 5764607523034235 / 64, and quantizing
yields 90071992547409.92, one minor unit short of the original amount. -/
theorem C4_round_trip_counterexample :
    amount_to_decimal 2 (decimal_to_int 2 ((9007199254740993:ℚ) / 100))
      ≠ (9007199254740993:ℚ) / 100 := by
  have ha : decimal_to_int 2 ((9007199254740993:ℚ) / 100) = (9007199254740993:ℤ) := by
    rw [decimal_to_int]
    have hx : (9007199254740993:ℚ) / 100 * 10^2 = ((9007199254740993:ℤ):ℚ) := by
      norm_num
    rw [hx, pyIntTrunc, if_pos (by norm_num), Int.floor_intCast]
  have hlog1 : Int.log 2 (9007199254740993:ℚ) = 53 :=
    log2_eq_of (by norm_num) (by norm_num)
  have hfl1 : ⌊(9007199254740993:ℚ)/2⌋ = 4503599627370496 := by norm_num
  have hrte1 : rte ((9007199254740993:ℚ)/2) = 4503599627370496 := by
    rw [rte, hfl1, if_neg (by norm_num), if_neg (by norm_num), if_pos (by norm_num)]
  have hfo1 : pyFloatOfInt (9007199254740993:ℤ) = (9007199254740992:ℚ) := by
    rw [pyFloatOfInt]
    have hc : (((9007199254740993:ℤ)):ℚ) = (9007199254740993:ℚ) := by norm_num
    rw [hc, nearestFloat, if_neg (by norm_num), if_neg (by norm_num),
      nearestFloatPos, hlog1]
    have hx1 : (9007199254740993:ℚ) * (2:ℚ)^((52:ℤ) - 53) = 9007199254740993/2 := by
      norm_num
    rw [hx1, hrte1]
    norm_num
  have h100 : pyFloatOfInt ((10:ℤ)^2) = (100:ℚ) := by
    rw [pyFloatOfInt]
    have hc : (((10:ℤ)^2 : ℤ):ℚ) = ((100:ℕ):ℚ) := by norm_num
    rw [hc, nearestFloat_natCast 100 (by norm_num)]
    norm_num
  have hlog2 : Int.log 2 ((9007199254740992:ℚ)/100) = 46 :=
    log2_eq_of (by norm_num) (by norm_num)
  have hfl2 : ⌊(144115188075855872:ℚ)/25⌋ = 5764607523034234 := by norm_num
  have hrte2 : rte ((144115188075855872:ℚ)/25) = 5764607523034235 := by
    rw [rte, hfl2, if_neg (by norm_num), if_pos (by norm_num)]
    norm_num
  have hdiv : pyFloatDiv (9007199254740992:ℚ) (100:ℚ) = (5764607523034235:ℚ)/64 := by
    rw [pyFloatDiv, nearestFloat, if_neg (by norm_num), if_neg (by norm_num),
      nearestFloatPos, hlog2]
    have hx2 : (9007199254740992:ℚ)/100 * (2:ℚ)^((52:ℤ) - 46)
        = (144115188075855872:ℚ)/25 := by norm_num
    rw [hx2, hrte2]
    norm_num
  have hfl3 : ⌊(5764607523034235:ℚ)/64 * 10^2 + 1/2⌋ = 9007199254740992 := by
    norm_num
  have hrd : round_decimal ((5764607523034235:ℚ)/64) 2 = (9007199254740992:ℚ)/100 := by
    rw [round_decimal, roundHalfUp, if_pos (by norm_num), hfl3]
    norm_num
  rw [ha, amount_to_decimal, hfo1, h100, hdiv, hrd]
  norm_num

end PretixPayone
